import Mathlib

/-!
Shallow embedding of the wallet session controller (`useWallet` hook) and the
presentation adapter's address formatter (`WalletCard.formatAddress`).

The controller owns a single mutable `WalletState` record plus a persisted
boolean flag (`localStorage` key `walletConnected`).  Every external call to
the browser-injected provider (`window.ethereum`) is modelled by sampling an
`EthereumProvider` environment record that fixes the outcome of each kind of
request the operation may issue; `window.ethereum` itself is an
`Option EthereumProvider`.  Each controller operation is embedded as a pure
function from the pre-state `(WalletState, Bool)` to the post-state, executed
atomically (the event-loop granularity of one completed operation).
-/

/-- Error value observed in a `catch` block.  Provider rejections carry a
numeric `code` (e.g. 4001, 4902); plain `Error` objects thrown locally
(`new Error('Ethereum provider not available')`) have no code, modelled by
`none`. -/
structure EthereumRpcError where
  code : Option Int
deriving DecidableEq

instance {ε α : Type} [DecidableEq ε] [DecidableEq α] : DecidableEq (Except ε α) := fun x y =>
  match x, y with
  | .ok a, .ok b => if h : a = b then .isTrue (by rw [h]) else .isFalse (by simp [h])
  | .error a, .error b => if h : a = b then .isTrue (by rw [h]) else .isFalse (by simp [h])
  | .ok _, .error _ => .isFalse (by simp)
  | .error _, .ok _ => .isFalse (by simp)

/-- One sample of the external provider environment: the outcome of each kind
of `window.ethereum.request` an operation may issue, plus the `isMetaMask`
marker.  `requestAccountsResult` answers `eth_requestAccounts`,
`accountsResult` answers the passive `eth_accounts`, `chainIdResult` answers
`eth_chainId`, `getBalanceResult` answers `eth_getBalance`, and `switchResult`
answers `wallet_switchEthereumChain`. -/
structure EthereumProvider where
  isMetaMask : Bool
  requestAccountsResult : Except EthereumRpcError (List String)
  accountsResult : Except EthereumRpcError (List String)
  chainIdResult : Except EthereumRpcError String
  getBalanceResult : Except EthereumRpcError String
  switchResult : Except EthereumRpcError Unit
deriving DecidableEq

/-- The session record, from `useState<WalletState>` in the hook (fields
`address`, `isConnected`, `isConnecting`, `error`, `chainId`, `balance`). -/
structure WalletState where
  address : Option String
  isConnected : Bool
  isConnecting : Bool
  error : Option String
  chainId : Option String
  balance : Option String
deriving DecidableEq

/-- The initial session record passed to `useState`. -/
def initialWalletState : WalletState :=
  { address := none, isConnected := false, isConnecting := false,
    error := none, chainId := none, balance := none }

/-- `isMetamaskInstalled = typeof window !== 'undefined' && !!window.ethereum?.isMetaMask`. -/
def isMetamaskInstalled (eth : Option EthereumProvider) : Bool :=
  match eth with
  | some p => p.isMetaMask
  | none => false

/-- Value of a hexadecimal digit character, `none` for a non-digit. -/
def hexDigitVal (c : Char) : Option Nat :=
  if '0' ≤ c ∧ c ≤ '9' then some (c.toNat - 48)
  else if 'a' ≤ c ∧ c ≤ 'f' then some (c.toNat - 87)
  else if 'A' ≤ c ∧ c ≤ 'F' then some (c.toNat - 55)
  else none

/-- Accumulate the maximal leading run of hex digits, stopping at the first
non-digit, as JavaScript `parseInt` does. -/
def parseHexLoop : List Char → Nat → Nat
  | [], acc => acc
  | c :: cs, acc =>
    match hexDigitVal c with
    | some d => parseHexLoop cs (acc * 16 + d)
    | none => acc

/-- Models `parseInt(s, 16)` on the provider's hex-quantity format: an
optional `0x`/`0X` prefix followed by hex digits, parsing the maximal digit
prefix and returning `none` (JS `NaN`) when no digit is consumed.  Sign and
leading-whitespace handling of `parseInt` are omitted: `eth_getBalance`
results are unsigned quantities. -/
def parseIntHex (s : String) : Option Nat :=
  let cs :=
    match s.data with
    | '0' :: 'x' :: rest => rest
    | '0' :: 'X' :: rest => rest
    | other => other
  match cs with
  | [] => none
  | c :: _ =>
    match hexDigitVal c with
    | none => none
    | some _ => some (parseHexLoop cs 0)

/-- Decimal digit character for `d < 10`. -/
def digitChar (d : Nat) : Char := Char.ofNat (48 + d)

/-- Little-endian decimal digits of `n`, with explicit fuel (callers pass
`n` itself, which bounds the digit count). -/
def natDigitsRev : Nat → Nat → List Char
  | 0, _ => []
  | fuel + 1, n => if n = 0 then [] else digitChar (n % 10) :: natDigitsRev fuel (n / 10)

/-- Decimal rendering of a natural number (models JS number-to-string on
non-negative integers). -/
def natToDecString (n : Nat) : String :=
  if n = 0 then "0" else ⟨(natDigitsRev n n).reverse⟩

/-- Left-pad a digit string with `'0'` to length 4. -/
def padZeros4 (s : String) : String :=
  ⟨List.replicate (4 - s.data.length) '0' ++ s.data⟩

/-- Fuel-based floor of the base-2 logarithm (callers pass `n` itself as
fuel, which bounds the recursion depth). -/
def log2Fuel : Nat → Nat → Nat
  | 0, _ => 0
  | fuel + 1, n => if n ≤ 1 then 0 else log2Fuel fuel (n / 2) + 1

/-- `nlog2 n` is the greatest `k` with `2^k ≤ n` (for `n ≥ 1`). -/
def nlog2 (n : Nat) : Nat := log2Fuel n n

/-- The rational value `2^e` for an integer exponent `e`. -/
def pow2z (e : ℤ) : ℚ :=
  if 0 ≤ e then ((2 ^ e.toNat : ℕ) : ℚ) else ((2 ^ (-e).toNat : ℕ) : ℚ)⁻¹

/-- First guess `nlog2 num - nlog2 den` for the binade of a positive
rational; off by at most one (see `flog2_bounds`). -/
def rawExp (q : ℚ) : ℤ := (nlog2 q.num.natAbs : ℤ) - (nlog2 q.den : ℤ)

/-- The binade of a positive rational: the greatest `e` with `2^e ≤ q`. -/
def flog2 (q : ℚ) : ℤ := if q < pow2z (rawExp q) then rawExp q - 1 else rawExp q

/-- Exponent of one unit in the last place of the binary64 with `q`'s
binade: the 53-bit significand occupies `[2^52, 2^53)`. -/
def ulpExp (q : ℚ) : ℤ := flog2 q - 52

/-- `q` scaled into the significand range `[2^52, 2^53)`. -/
def rndSig (q : ℚ) : ℚ := q / pow2z (ulpExp q)

/-- The 53-bit significand nearest to `rndSig q`, ties to the even
significand — the IEEE-754 default rounding direction. -/
def rndMant (q : ℚ) : ℤ :=
  if 1 / 2 < rndSig q - (⌊rndSig q⌋ : ℚ) then ⌊rndSig q⌋ + 1
  else if rndSig q - (⌊rndSig q⌋ : ℚ) < 1 / 2 then ⌊rndSig q⌋
  else if ⌊rndSig q⌋ % 2 = 0 then ⌊rndSig q⌋ else ⌊rndSig q⌋ + 1

/-- The exact rational value of the IEEE-754 binary64 nearest to `q`
(round-to-nearest, ties-to-even), for `q = 0` or `q` in the positive normal
finite range `[2^-1022, 2^1024)`; the subnormal and overflow regimes are
outside the modelled domain (they need balances below `2^-1022` or above
`~1.8e308` ETH). -/
def roundToBinary64 (q : ℚ) : ℚ :=
  if q = 0 then 0 else (rndMant q : ℚ) * pow2z (ulpExp q)

/-- The integer printed by ECMAScript `toFixed(4)` on its fixed-notation
branch (`0 ≤ x < 10^21`): the `n` for which `n / 10^4` is closest to `x`,
the larger `n` on ties, i.e. `⌊x * 10^4 + 1/2⌋`. -/
def toFixed4Num (x : ℚ) : Nat := (⌊x * 10 ^ 4 + 1 / 2⌋).toNat

/-- ECMAScript `Number.prototype.toFixed(4)` on its fixed-notation branch
(`0 ≤ x < 10^21`, where `x` is the exact rational value of the binary64
receiver): integer part, a dot, and the fractional part padded to exactly 4
digits.  The exponential branch taken for `x ≥ 10^21` is outside the
modelled domain. -/
def toFixed4 (x : ℚ) : String :=
  natToDecString (toFixed4Num x / 10 ^ 4) ++ "." ++ padZeros4 (natToDecString (toFixed4Num x % 10 ^ 4))

/-- `parseInt(hex, 16) / 1e18` followed by `.toFixed(4)`, in IEEE-754
binary64 arithmetic: `parseInt` returns the parsed integer converted to a
binary64 (`roundToBinary64 w`, lossy above `2^53`); the literal `1e18` is
exactly `10^18` in binary64 (`10^18 = 2^18 * 5^18` with `5^18 < 2^53`), and
IEEE division is the correctly rounded exact quotient, so `balanceEth` is
`roundToBinary64 (balanceWei / 10^18)`; `toFixed(4)` then formats that
double's exact value. -/
def weiToEth4 (w : Nat) : String :=
  toFixed4 (roundToBinary64 (roundToBinary64 (w : ℚ) / 10 ^ 18))

/-- `getBalance`: requests `eth_getBalance`, converts the hex wei quantity to
an ETH string with 4 decimal places; returns `null` when the provider is
absent or the request rejects (both are caught).  A hex response that parses
to `NaN` flows through `NaN / 1e18 = NaN` and `toFixed`, yielding `"NaN"`. -/
def getBalance (eth : Option EthereumProvider) (address : String) : Option String :=
  match eth with
  | none => none
  | some p =>
    match p.getBalanceResult with
    | .error _ => none
    | .ok balanceHex =>
      match parseIntHex balanceHex with
      | some balanceWei => some (weiToEth4 balanceWei)
      | none => some "NaN"

/-- `updateWalletState(address)`: queries `eth_chainId`, then `getBalance`
(which never throws), and on success atomically sets `address`, `chainId`,
`balance`, `isConnected := true`, `isConnecting := false`, `error := null`
and persists the flag.  When the provider is absent or the chain-id request
rejects, the catch block sets only
`error := 'Failed to update wallet information'` and `isConnecting := false`,
leaving every other field (including `address`) at its previous value. -/
def updateWalletState (eth : Option EthereumProvider) (address : String)
    (s : WalletState) (store : Bool) : WalletState × Bool :=
  match eth with
  | none =>
    ({ s with error := some "Failed to update wallet information", isConnecting := false }, store)
  | some p =>
    match p.chainIdResult with
    | .error _ =>
      ({ s with error := some "Failed to update wallet information", isConnecting := false }, store)
    | .ok chainId =>
      let balance := getBalance eth address
      ({ s with address := some address, chainId := some chainId, balance := balance,
                isConnected := true, isConnecting := false, error := none }, true)

/-- `connect()`: when `isMetamaskInstalled` is false, sets only
`error := 'MetaMask is not installed'` and returns.  Otherwise sets
`isConnecting := true`, `error := null`, then requests `eth_requestAccounts`:
a non-empty account list leads into `updateWalletState(accounts[0])`; an
empty list falls through with no further update; a rejection sets
`isConnecting := false` and `error` to `'Connection rejected by user'` for
code 4001, else `'Failed to connect wallet'` (also for the local
provider-absent throw, whose error has no code). -/
def connect (eth : Option EthereumProvider) (s : WalletState) (store : Bool) :
    WalletState × Bool :=
  if isMetamaskInstalled eth then
    let s1 := { s with isConnecting := true, error := none }
    match eth with
    | none =>
      ({ s1 with error := some "Failed to connect wallet", isConnecting := false }, store)
    | some p =>
      match p.requestAccountsResult with
      | .ok accounts =>
        match accounts with
        | first :: _ => updateWalletState eth first s1 store
        | [] => (s1, store)
      | .error e =>
        let errorMessage :=
          if e.code = some 4001 then "Connection rejected by user" else "Failed to connect wallet"
        ({ s1 with error := some errorMessage, isConnecting := false }, store)
  else
    ({ s with error := some "MetaMask is not installed" }, store)

/-- `disconnect()`: unconditionally resets the session record to the
all-absent/false state and removes the persisted flag. -/
def disconnect (s : WalletState) (store : Bool) : WalletState × Bool :=
  ({ address := none, isConnected := false, isConnecting := false,
     error := none, chainId := none, balance := none }, false)

/-- `switchNetwork(chainId)`: requests `wallet_switchEthereumChain`; on
success, if `walletState.address` is truthy (present and non-empty), re-runs
`updateWalletState` on it.  On failure sets only `error`: code 4902 maps to
`'This network is not added to MetaMask'`, code 4001 to
`'Network switch rejected by user'`, anything else (including the local
provider-absent throw) to `'Failed to switch network'`; `isConnecting` and
`isConnected` are not touched on this path. -/
def switchNetwork (eth : Option EthereumProvider) (chainId : String)
    (s : WalletState) (store : Bool) : WalletState × Bool :=
  match eth with
  | none =>
    ({ s with error := some "Failed to switch network" }, store)
  | some p =>
    match p.switchResult with
    | .ok _ =>
      match s.address with
      | some a => if a = "" then (s, store) else updateWalletState eth a s store
      | none => (s, store)
    | .error e =>
      let errorMessage :=
        if e.code = some 4902 then "This network is not added to MetaMask"
        else if e.code = some 4001 then "Network switch rejected by user"
        else "Failed to switch network"
      ({ s with error := some errorMessage }, store)

/-- The `autoConnect` routine run once on mount: when the persisted flag is
set and a MetaMask provider is present, passively queries `eth_accounts` and
runs `updateWalletState` on the first account if any; when that query
rejects, removes the persisted flag.  An empty account list changes
nothing. -/
def autoConnect (eth : Option EthereumProvider) (s : WalletState) (store : Bool) :
    WalletState × Bool :=
  if store && isMetamaskInstalled eth then
    match eth with
    | none => (s, store)
    | some p =>
      match p.accountsResult with
      | .ok accounts =>
        match accounts with
        | first :: _ => updateWalletState eth first s store
        | [] => (s, store)
      | .error _ => (s, false)
  else
    (s, store)

/-- The `accountsChanged` event handler: an empty list runs `disconnect()`;
otherwise, when the first account differs from the current `address`, runs
`updateWalletState` on it, and when it is equal does nothing. -/
def handleAccountsChanged (eth : Option EthereumProvider) (accounts : List String)
    (s : WalletState) (store : Bool) : WalletState × Bool :=
  match accounts with
  | [] => disconnect s store
  | first :: _ =>
    if s.address ≠ some first then updateWalletState eth first s store else (s, store)

/-- One controller operation or event notification, together with the sample
of the provider environment it observes.  The `chainChanged` notification
reloads the page and is therefore not a session transition. -/
inductive Op where
  | opConnect (eth : Option EthereumProvider)
  | opDisconnect
  | opSwitchNetwork (eth : Option EthereumProvider) (chainId : String)
  | opAccountsChanged (eth : Option EthereumProvider) (accounts : List String)
  | opAutoConnect (eth : Option EthereumProvider)
deriving DecidableEq

/-- Apply one operation to a session-and-flag state. -/
def step : Op → WalletState × Bool → WalletState × Bool
  | .opConnect eth, (s, store) => connect eth s store
  | .opDisconnect, (s, store) => disconnect s store
  | .opSwitchNetwork eth cid, (s, store) => switchNetwork eth cid s store
  | .opAccountsChanged eth accounts, (s, store) => handleAccountsChanged eth accounts s store
  | .opAutoConnect eth, (s, store) => autoConnect eth s store

/-- The controller's start state: initial session record, persisted flag
absent. -/
def initialState : WalletState × Bool := (initialWalletState, false)

/-- Run a sequence of operations from a state. -/
def runOps (ops : List Op) (s : WalletState × Bool) : WalletState × Bool :=
  ops.foldl (fun t op => step op t) s

/-- Whether an operation is a `connect()` call. -/
def isConnectOp : Op → Bool
  | .opConnect _ => true
  | _ => false

/-- A trace is connect-disciplined when every `connect()` in it is issued
from a state that is not already connected. -/
def connectDisciplined : List Op → WalletState × Bool → Bool
  | [], _ => true
  | op :: rest, t =>
    (!(isConnectOp op) || !(t.1.isConnected)) && connectDisciplined rest (step op t)

/-- Whether `updateWalletState`'s provider query fails: provider absent, or
the `eth_chainId` request rejects. -/
def chainQueryFails (eth : Option EthereumProvider) : Bool :=
  match eth with
  | none => true
  | some p =>
    match p.chainIdResult with
    | .error _ => true
    | .ok _ => false

/-- Models JS `String.prototype.substring(start, stop)`: indices clamped to
the string length and swapped when out of order. -/
def jsSubstring (s : String) (start stop : Nat) : String :=
  let len := s.length
  let a := min start len
  let b := min stop len
  ⟨(s.data.take (max a b)).drop (min a b)⟩

/-- `formatAddress` from the presentation adapter: addresses of length at
most 10 are returned unchanged, longer ones as
`addr.substring(0, 6) + '...' + addr.substring(addr.length - 4)`. -/
def formatAddress (addr : String) : String :=
  if addr.length ≤ 10 then addr
  else jsSubstring addr 0 6 ++ "..." ++ jsSubstring addr (addr.length - 4) addr.length

/-- The digits after the final dot of a formatted decimal string. -/
def fracDigits (s : String) : List Char :=
  s.data.reverse.takeWhile (fun c => c != '.')

/-! ## Helper lemmas -/

/-- `updateWalletState` ends with `isConnecting = false` on every path: the
success branch and the catch branch both clear it. -/
theorem updateWalletState_isConnecting (eth : Option EthereumProvider) (address : String)
    (s : WalletState) (store : Bool) :
    (updateWalletState eth address s store).1.isConnecting = false := by
  cases eth with
  | none => rfl
  | some p =>
    cases hc : p.chainIdResult with
    | error e => simp [updateWalletState, hc]
    | ok cid => simp [updateWalletState, hc]

/-- `connect` either ends with `isConnecting = false` or leaves `isConnected`
unchanged (the not-installed and empty-account-list branches). -/
theorem connect_flags (eth : Option EthereumProvider) (s : WalletState) (store : Bool) :
    (connect eth s store).1.isConnecting = false ∨
    (connect eth s store).1.isConnected = s.isConnected := by
  cases eth with
  | none => right; simp [connect, isMetamaskInstalled]
  | some p =>
    by_cases hm : p.isMetaMask = true
    · cases hra : p.requestAccountsResult with
      | ok accounts =>
        cases accounts with
        | nil => right; simp [connect, isMetamaskInstalled, hm, hra]
        | cons first rest =>
          left; simp [connect, isMetamaskInstalled, hm, hra, updateWalletState_isConnecting]
      | error e => left; simp [connect, isMetamaskInstalled, hm, hra]
    · right
      have hm' : p.isMetaMask = false := by
        cases h : p.isMetaMask with
        | true => exact absurd h hm
        | false => rfl
      simp [connect, isMetamaskInstalled, hm']

/-- `switchNetwork` either ends with `isConnecting = false` (when it re-runs
the sync routine) or leaves both flags unchanged. -/
theorem switchNetwork_flags (eth : Option EthereumProvider) (cid : String)
    (s : WalletState) (store : Bool) :
    (switchNetwork eth cid s store).1.isConnecting = false ∨
    ((switchNetwork eth cid s store).1.isConnecting = s.isConnecting ∧
     (switchNetwork eth cid s store).1.isConnected = s.isConnected) := by
  cases eth with
  | none => right; simp [switchNetwork]
  | some p =>
    cases hsw : p.switchResult with
    | error e => right; simp [switchNetwork, hsw]
    | ok u =>
      cases ha : s.address with
      | none => right; simp [switchNetwork, hsw, ha]
      | some a =>
        by_cases he : a = ""
        · right; simp [switchNetwork, hsw, ha, he]
        · left; simp [switchNetwork, hsw, ha, he, updateWalletState_isConnecting]

/-- The `accountsChanged` handler either ends with `isConnecting = false` or
leaves both flags unchanged. -/
theorem handleAccountsChanged_flags (eth : Option EthereumProvider) (accounts : List String)
    (s : WalletState) (store : Bool) :
    (handleAccountsChanged eth accounts s store).1.isConnecting = false ∨
    ((handleAccountsChanged eth accounts s store).1.isConnecting = s.isConnecting ∧
     (handleAccountsChanged eth accounts s store).1.isConnected = s.isConnected) := by
  cases accounts with
  | nil => left; rfl
  | cons first rest =>
    by_cases hd : s.address ≠ some first
    · left; simp [handleAccountsChanged, hd, updateWalletState_isConnecting]
    · right; simp [handleAccountsChanged, hd]

/-- `autoConnect` either ends with `isConnecting = false` or leaves both
flags unchanged. -/
theorem autoConnect_flags (eth : Option EthereumProvider) (s : WalletState) (store : Bool) :
    (autoConnect eth s store).1.isConnecting = false ∨
    ((autoConnect eth s store).1.isConnecting = s.isConnecting ∧
     (autoConnect eth s store).1.isConnected = s.isConnected) := by
  by_cases hg : (store && isMetamaskInstalled eth) = true
  · cases eth with
    | none => right; simp [autoConnect, hg]
    | some p =>
      cases hra : p.accountsResult with
      | error e => right; simp [autoConnect, hg, hra]
      | ok accounts =>
        cases accounts with
        | nil => right; simp [autoConnect, hg, hra]
        | cons first rest => left; simp [autoConnect, hg, hra, updateWalletState_isConnecting]
  · right; simp [autoConnect, hg]

/-- One step preserves the not-both-flags invariant, provided a `connect` is
only issued from a not-connected state. -/
theorem step_preserves_flags (op : Op) (t : WalletState × Bool)
    (hI : t.1.isConnecting = false ∨ t.1.isConnected = false)
    (hc : isConnectOp op = true → t.1.isConnected = false) :
    (step op t).1.isConnecting = false ∨ (step op t).1.isConnected = false := by
  obtain ⟨s, store⟩ := t
  cases op with
  | opConnect eth =>
    rcases connect_flags eth s store with h | h
    · exact Or.inl h
    · exact Or.inr (h.trans (hc rfl))
  | opDisconnect => exact Or.inl rfl
  | opSwitchNetwork eth cid =>
    rcases switchNetwork_flags eth cid s store with h | ⟨h1, h2⟩
    · exact Or.inl h
    · rcases hI with h' | h'
      · exact Or.inl (h1.trans h')
      · exact Or.inr (h2.trans h')
  | opAccountsChanged eth accounts =>
    rcases handleAccountsChanged_flags eth accounts s store with h | ⟨h1, h2⟩
    · exact Or.inl h
    · rcases hI with h' | h'
      · exact Or.inl (h1.trans h')
      · exact Or.inr (h2.trans h')
  | opAutoConnect eth =>
    rcases autoConnect_flags eth s store with h | ⟨h1, h2⟩
    · exact Or.inl h
    · rcases hI with h' | h'
      · exact Or.inl (h1.trans h')
      · exact Or.inr (h2.trans h')

/-- Running a connect-disciplined trace preserves the not-both-flags
invariant. -/
theorem runOps_flags (ops : List Op) (t : WalletState × Bool)
    (hI : t.1.isConnecting = false ∨ t.1.isConnected = false)
    (hd : connectDisciplined ops t = true) :
    (runOps ops t).1.isConnecting = false ∨ (runOps ops t).1.isConnected = false := by
  induction ops generalizing t with
  | nil => simpa [runOps] using hI
  | cons op rest ih =>
    simp only [connectDisciplined, Bool.and_eq_true] at hd
    obtain ⟨h1, h2⟩ := hd
    have hcon : isConnectOp op = true → t.1.isConnected = false := by
      intro hop
      simp only [hop, Bool.not_true, Bool.false_or] at h1
      simpa using h1
    have hstep := step_preserves_flags op t hI hcon
    simpa [runOps] using ih (step op t) hstep h2

/-! ## Lemmas for the binary64 rounding and balance formatting model -/


theorem log2Fuel_bounds (fuel : Nat) : ∀ n : Nat, 1 ≤ n → n ≤ fuel →
    2 ^ log2Fuel fuel n ≤ n ∧ n < 2 ^ (log2Fuel fuel n + 1) := by
  induction fuel with
  | zero => intro n h1 h2; omega
  | succ fuel ih =>
    intro n h1 h2
    by_cases hn : n ≤ 1
    · have hone : n = 1 := by omega
      subst hone
      simp [log2Fuel]
    · simp only [log2Fuel, hn, if_false]
      obtain ⟨ha, hb⟩ := ih (n / 2) (by omega) (by omega)
      rw [pow_succ, pow_succ]
      omega

/-- `nlog2` is the floor of the base-2 logarithm: `2^(nlog2 n) ≤ n < 2^(nlog2 n + 1)`. -/
theorem nlog2_bounds (n : Nat) (h : 1 ≤ n) :
    2 ^ nlog2 n ≤ n ∧ n < 2 ^ (nlog2 n + 1) :=
  log2Fuel_bounds n n h le_rfl

/-- `pow2z` agrees with the integer power `(2 : ℚ) ^ e`. -/
theorem pow2z_eq_zpow (e : ℤ) : pow2z e = (2 : ℚ) ^ e := by
  unfold pow2z
  by_cases h : 0 ≤ e
  · rw [if_pos h]
    push_cast
    rw [← zpow_natCast, Int.toNat_of_nonneg h]
  · rw [if_neg h]
    push_cast
    rw [← zpow_natCast, Int.toNat_of_nonneg (by omega : (0:ℤ) ≤ -e), ← zpow_neg, neg_neg]

/-- Powers of two are positive. -/
theorem pow2z_pos (e : ℤ) : 0 < pow2z e := by
  rw [pow2z_eq_zpow]
  positivity

/-- Powers of two are monotone in the exponent. -/
theorem pow2z_mono {e f : ℤ} (h : e ≤ f) : pow2z e ≤ pow2z f := by
  rw [pow2z_eq_zpow, pow2z_eq_zpow]
  exact zpow_le_zpow_right₀ one_le_two h

/-- Correctness of the binade computation: `2^(flog2 q) ≤ q < 2^(flog2 q + 1)`
for positive `q`. -/
theorem flog2_bounds (q : ℚ) (h : 0 < q) :
    pow2z (flog2 q) ≤ q ∧ q < pow2z (flog2 q + 1) := by
  have hnum : 0 < q.num := Rat.num_pos.mpr h
  have hN1 : 1 ≤ q.num.natAbs := by omega
  have hD1 : 1 ≤ q.den := q.den_pos
  obtain ⟨haN, hbN⟩ := nlog2_bounds q.num.natAbs hN1
  obtain ⟨haD, hbD⟩ := nlog2_bounds q.den hD1
  set a := nlog2 q.num.natAbs with hadef
  set b := nlog2 q.den with hbdef
  have hq : q = (q.num.natAbs : ℚ) / (q.den : ℚ) := by
    have h0 : ((q.num.natAbs : ℕ) : ℤ) = q.num := Int.natAbs_of_nonneg hnum.le
    have h0q : ((q.num.natAbs : ℕ) : ℚ) = ((q.num : ℤ) : ℚ) := by
      calc ((q.num.natAbs : ℕ) : ℚ) = (((q.num.natAbs : ℕ) : ℤ) : ℚ) := (Int.cast_natCast _).symm
        _ = ((q.num : ℤ) : ℚ) := by rw [h0]
    rw [h0q]
    exact (Rat.num_div_den q).symm
  have hDpos : (0 : ℚ) < (q.den : ℚ) := by exact_mod_cast hD1
  have hNpos : (0 : ℚ) < (q.num.natAbs : ℚ) := by exact_mod_cast hN1
  have hcastN1 : (q.num.natAbs : ℚ) < (2 : ℚ) ^ (a + 1 : ℕ) := by exact_mod_cast hbN
  have hcastN2 : (2 : ℚ) ^ (a : ℕ) ≤ (q.num.natAbs : ℚ) := by exact_mod_cast haN
  have hcastD1 : (q.den : ℚ) < (2 : ℚ) ^ (b + 1 : ℕ) := by exact_mod_cast hbD
  have hcastD2 : (2 : ℚ) ^ (b : ℕ) ≤ (q.den : ℚ) := by exact_mod_cast haD
  have hupper : q < (2 : ℚ) ^ ((a : ℤ) - b + 1) := by
    have h1 : q ≤ (q.num.natAbs : ℚ) / (2 : ℚ) ^ (b : ℕ) := by
      conv_lhs => rw [hq]
      exact div_le_div_of_nonneg_left hNpos.le (by positivity) hcastD2
    have h2 : (q.num.natAbs : ℚ) / (2 : ℚ) ^ (b : ℕ) < (2 : ℚ) ^ (a + 1 : ℕ) / (2 : ℚ) ^ (b : ℕ) :=
      div_lt_div_of_pos_right hcastN1 (by positivity)
    have h3 : (2 : ℚ) ^ (a + 1 : ℕ) / (2 : ℚ) ^ (b : ℕ) = (2 : ℚ) ^ ((a : ℤ) - b + 1) := by
      rw [← zpow_natCast (2:ℚ) (a+1), ← zpow_natCast (2:ℚ) b, ← zpow_sub₀ (two_ne_zero)]
      congr 1
      push_cast
      ring
    rw [h3] at h2
    linarith
  have hlower : (2 : ℚ) ^ ((a : ℤ) - b - 1) < q := by
    have h1 : (2 : ℚ) ^ (a : ℕ) / (2 : ℚ) ^ (b + 1 : ℕ) ≤ (q.num.natAbs : ℚ) / (2 : ℚ) ^ (b + 1 : ℕ) :=
      (div_le_div_iff_of_pos_right (by positivity)).mpr hcastN2
    have h2 : (q.num.natAbs : ℚ) / (2 : ℚ) ^ (b + 1 : ℕ) < (q.num.natAbs : ℚ) / (q.den : ℚ) :=
      div_lt_div_of_pos_left hNpos hDpos hcastD1
    have h3 : (2 : ℚ) ^ (a : ℕ) / (2 : ℚ) ^ (b + 1 : ℕ) = (2 : ℚ) ^ ((a : ℤ) - b - 1) := by
      rw [← zpow_natCast (2:ℚ) a, ← zpow_natCast (2:ℚ) (b+1), ← zpow_sub₀ (two_ne_zero)]
      congr 1
      push_cast
      ring
    rw [h3] at h1
    rw [← hq] at h2
    linarith
  have hraw : rawExp q = (a : ℤ) - b := rfl
  unfold flog2
  by_cases hc : q < pow2z (rawExp q)
  · rw [if_pos hc]
    constructor
    · rw [pow2z_eq_zpow, show rawExp q - 1 = (a : ℤ) - b - 1 by rw [hraw]]
      exact hlower.le
    · rw [show rawExp q - 1 + 1 = rawExp q by ring]
      exact hc
  · rw [if_neg hc]
    constructor
    · exact le_of_not_lt hc
    · rw [pow2z_eq_zpow, show rawExp q + 1 = (a : ℤ) - b + 1 by rw [hraw]]
      exact hupper

/-- The binade is the unique exponent bracketing `q`, which lets concrete
binades be certified by two rational comparisons. -/
theorem flog2_eq (q : ℚ) (E : ℤ) (h1 : pow2z E ≤ q) (h2 : q < pow2z (E + 1)) :
    flog2 q = E := by
  have hqpos : 0 < q := lt_of_lt_of_le (pow2z_pos E) h1
  obtain ⟨hb1, hb2⟩ := flog2_bounds q hqpos
  by_contra hne
  rcases lt_or_gt_of_ne hne with hlt | hgt
  · have : pow2z (flog2 q + 1) ≤ pow2z E := pow2z_mono (by omega)
    linarith
  · have : pow2z (E + 1) ≤ pow2z (flog2 q) := pow2z_mono (by omega)
    linarith

/-- Certify a concrete floor value by two rational comparisons. -/
theorem floorEval (x : ℚ) (m : ℤ) (h1 : (m : ℚ) ≤ x) (h2 : x < m + 1) : ⌊x⌋ = m :=
  Int.floor_eq_iff.mpr ⟨h1, h2⟩

/-- Scaling into the significand range and back is the identity. -/
theorem rndSig_mul (q : ℚ) : rndSig q * pow2z (ulpExp q) = q := by
  unfold rndSig
  exact div_mul_cancel₀ q (pow2z_pos _).ne'

/-- A value whose scaled significand is an integer is exactly representable
and rounds to itself. -/
theorem roundToBinary64_of_int_sig (q : ℚ) (hq : q ≠ 0)
    (h : ((⌊rndSig q⌋ : ℤ) : ℚ) = rndSig q) : roundToBinary64 q = q := by
  unfold roundToBinary64 rndMant
  rw [if_neg hq]
  have hz : rndSig q - ((⌊rndSig q⌋ : ℤ) : ℚ) = 0 := by rw [h]; ring
  rw [hz]
  rw [if_neg (by norm_num), if_pos (by norm_num)]
  rw [h]
  exact rndSig_mul q

/-- Evaluation of the rounding when the significand's fractional part is
below one half: round down to the floor significand. -/
theorem roundToBinary64_round_down (q : ℚ) (m0 : ℤ) (hq : q ≠ 0)
    (hm : ⌊rndSig q⌋ = m0) (hlt : rndSig q - (m0 : ℚ) < 1 / 2) :
    roundToBinary64 q = (m0 : ℚ) * pow2z (ulpExp q) := by
  unfold roundToBinary64 rndMant
  rw [if_neg hq, hm]
  rw [if_neg (by linarith), if_pos hlt]

/-- Evaluation of the rounding when the significand's fractional part is
above one half: round up. -/
theorem roundToBinary64_round_up (q : ℚ) (m0 : ℤ) (hq : q ≠ 0)
    (hm : ⌊rndSig q⌋ = m0) (hgt : 1 / 2 < rndSig q - (m0 : ℚ)) :
    roundToBinary64 q = ((m0 : ℚ) + 1) * pow2z (ulpExp q) := by
  unfold roundToBinary64 rndMant
  rw [if_neg hq, hm]
  rw [if_pos hgt]
  push_cast
  ring

/-- Fidelity of the rounding: the binary64 nearest to `q` is within half a
unit in the last place, `2^(flog2 q - 53)`, of `q` — the defining accuracy
of IEEE-754 round-to-nearest. -/
theorem roundToBinary64_half_ulp (q : ℚ) (h : 0 < q) :
    |roundToBinary64 q - q| ≤ pow2z (flog2 q - 53) := by
  have hP : 0 < pow2z (ulpExp q) := pow2z_pos _
  have hfl_le : ((⌊rndSig q⌋ : ℤ) : ℚ) ≤ rndSig q := Int.floor_le _
  have hfl_gt : rndSig q < (⌊rndSig q⌋ : ℚ) + 1 := Int.lt_floor_add_one _
  have key : |(rndMant q : ℚ) - rndSig q| ≤ 1 / 2 := by
    unfold rndMant
    by_cases h1 : 1 / 2 < rndSig q - ((⌊rndSig q⌋ : ℤ) : ℚ)
    · rw [if_pos h1, abs_le]
      push_cast
      constructor <;> linarith
    · rw [if_neg h1]
      by_cases h2 : rndSig q - ((⌊rndSig q⌋ : ℤ) : ℚ) < 1 / 2
      · rw [if_pos h2, abs_le]
        constructor <;> linarith
      · rw [if_neg h2]
        have heq : rndSig q - ((⌊rndSig q⌋ : ℤ) : ℚ) = 1 / 2 := by linarith
        by_cases h3 : ⌊rndSig q⌋ % 2 = 0
        · rw [if_pos h3, abs_le]
          constructor <;> linarith
        · rw [if_neg h3, abs_le]
          push_cast
          constructor <;> linarith
  have hrepr : roundToBinary64 q - q = ((rndMant q : ℚ) - rndSig q) * pow2z (ulpExp q) := by
    unfold roundToBinary64
    rw [if_neg h.ne']
    rw [sub_mul, rndSig_mul]
  calc |roundToBinary64 q - q| = |(rndMant q : ℚ) - rndSig q| * pow2z (ulpExp q) := by
        rw [hrepr, abs_mul, abs_of_pos hP]
    _ ≤ 1 / 2 * pow2z (ulpExp q) := mul_le_mul_of_nonneg_right key hP.le
    _ = pow2z (flog2 q - 53) := by
        rw [pow2z_eq_zpow, pow2z_eq_zpow]
        unfold ulpExp
        have hsplit : (2 : ℚ) ^ (flog2 q - 52) = 2 * 2 ^ (flog2 q - 53) := by
          rw [show flog2 q - 52 = 1 + (flog2 q - 53) by ring, zpow_add₀ (two_ne_zero), zpow_one]
        rw [hsplit]
        ring

/-- A decimal digit character is not the dot. -/
theorem digitChar_ne_dot (d : Nat) (hd : d < 10) : digitChar d ≠ '.' := by
  interval_cases d <;> decide

/-- No character produced by `natDigitsRev` is the dot. -/
theorem natDigitsRev_ne_dot (fuel n : Nat) : ∀ c ∈ natDigitsRev fuel n, c ≠ '.' := by
  induction fuel generalizing n with
  | zero => intro c hc; simp [natDigitsRev] at hc
  | succ fuel ih =>
    intro c hc
    by_cases hn : n = 0
    · simp [natDigitsRev, hn] at hc
    · simp only [natDigitsRev, hn, if_false, List.mem_cons] at hc
      rcases hc with hc | hc
      · rw [hc]; exact digitChar_ne_dot _ (Nat.mod_lt _ (by norm_num))
      · exact ih _ c hc

/-- `n < 10^k` has at most `k` decimal digits. -/
theorem natDigitsRev_length (fuel n k : Nat) (h : n < 10 ^ k) :
    (natDigitsRev fuel n).length ≤ k := by
  induction fuel generalizing n k with
  | zero => simp [natDigitsRev]
  | succ fuel ih =>
    by_cases hn : n = 0
    · simp [natDigitsRev, hn]
    · cases k with
      | zero => simp at h; omega
      | succ k =>
        simp only [natDigitsRev, hn, if_false, List.length_cons, Nat.succ_le_succ_iff]
        apply ih
        rw [Nat.div_lt_iff_lt_mul (by norm_num)]
        calc n < 10 ^ (k + 1) := h
          _ = 10 ^ k * 10 := by ring

/-- The decimal rendering of a natural number contains no dot. -/
theorem natToDecString_ne_dot (n : Nat) : ∀ c ∈ (natToDecString n).data, c ≠ '.' := by
  by_cases hn : n = 0
  · simp [natToDecString, hn]
  · simp only [natToDecString, hn, if_false]
    intro c hc
    rw [List.mem_reverse] at hc
    exact natDigitsRev_ne_dot n n c hc

/-- The decimal rendering of `n < 10^k` (with `k ≥ 1`) has at most `k`
characters. -/
theorem natToDecString_length_le (n k : Nat) (hk : 1 ≤ k) (h : n < 10 ^ k) :
    (natToDecString n).data.length ≤ k := by
  by_cases hn : n = 0
  · simp [natToDecString, hn]; omega
  · simp only [natToDecString, hn, if_false, List.length_reverse]
    exact natDigitsRev_length n n k h

/-- Padding a string of at most 4 characters yields exactly 4 characters. -/
theorem padZeros4_length (s : String) (h : s.data.length ≤ 4) :
    (padZeros4 s).data.length = 4 := by
  have hs : s.length = s.data.length := rfl
  simp [padZeros4]
  omega

/-- Padding with zeros introduces no dot. -/
theorem padZeros4_ne_dot (s : String) (h : ∀ c ∈ s.data, c ≠ '.') :
    ∀ c ∈ (padZeros4 s).data, c ≠ '.' := by
  intro c hc
  simp only [padZeros4, List.mem_append] at hc
  rcases hc with hc | hc
  · rw [List.eq_of_mem_replicate hc]; decide
  · exact h c hc

/-- `takeWhile` over a list whose prefix satisfies the predicate and whose
next element refutes it returns exactly that prefix. -/
theorem takeWhile_append_stop (p : Char → Bool) (l₁ : List Char) (x : Char) (l₂ : List Char)
    (h1 : ∀ c ∈ l₁, p c = true) (h2 : p x = false) :
    (l₁ ++ x :: l₂).takeWhile p = l₁ := by
  induction l₁ with
  | nil => simp [List.takeWhile, h2]
  | cons a l ih =>
    have ha : p a = true := h1 a (by simp)
    simp only [List.cons_append, List.takeWhile, ha, List.append_eq]
    rw [ih (fun c hc => h1 c (by simp [hc]))]

/-- The characters of the formatted value: integer part, a dot, then the
padded fractional part. -/
theorem toFixed4_data (x : ℚ) :
    (toFixed4 x).data =
      (natToDecString (toFixed4Num x / 10 ^ 4)).data ++
      '.' :: (padZeros4 (natToDecString (toFixed4Num x % 10 ^ 4))).data := by
  have hdot : ("." : String).data = ['.'] := rfl
  show (natToDecString (toFixed4Num x / 10 ^ 4) ++ "." ++
      padZeros4 (natToDecString (toFixed4Num x % 10 ^ 4))).data = _
  rw [String.data_append, String.data_append, List.append_assoc, hdot, List.singleton_append]

/-- The formatted value has exactly 4 characters after its dot. -/
theorem toFixed4_fracDigits_length (x : ℚ) : (fracDigits (toFixed4 x)).length = 4 := by
  unfold fracDigits
  rw [toFixed4_data]
  set ip := (natToDecString (toFixed4Num x / 10 ^ 4)).data with hip
  set fr := (padZeros4 (natToDecString (toFixed4Num x % 10 ^ 4))).data with hfr
  have hrev : (ip ++ '.' :: fr).reverse = fr.reverse ++ '.' :: ip.reverse := by
    rw [List.reverse_append, List.reverse_cons, List.append_assoc, List.singleton_append]
  rw [hrev]
  have hfrdot : ∀ c ∈ fr.reverse, (c != '.') = true := by
    intro c hc
    rw [List.mem_reverse] at hc
    have := padZeros4_ne_dot _ (natToDecString_ne_dot _) c hc
    simpa using this
  rw [takeWhile_append_stop _ _ _ _ hfrdot (by decide)]
  rw [List.length_reverse, hfr]
  apply padZeros4_length
  apply natToDecString_length_le _ 4 (by norm_num)
  exact Nat.mod_lt _ (by norm_num)

/-- The formatted value contains a dot. -/
theorem toFixed4_has_dot (x : ℚ) : '.' ∈ (toFixed4 x).data := by
  rw [toFixed4_data]
  exact List.mem_append_right _ (List.mem_cons_self _ _)

/-- The integer `toFixed(4)` prints is within half a unit in the fourth
decimal place of the formatted value `x`: the output is `x` rounded to 4
decimal places. -/
theorem toFixed4_rounding (x : ℚ) (hx : 0 ≤ x) :
    |((toFixed4Num x : ℕ) : ℚ) / 10 ^ 4 - x| ≤ 1 / 20000 := by
  have hxp : (0 : ℚ) ≤ x * 10 ^ 4 := mul_nonneg hx (by norm_num)
  have h0 : (0 : ℚ) ≤ x * 10 ^ 4 + 1 / 2 := by linarith
  have hfl : (0 : ℤ) ≤ ⌊x * 10 ^ 4 + 1 / 2⌋ := Int.floor_nonneg.mpr h0
  have hto : ((toFixed4Num x : ℕ) : ℚ) = ((⌊x * 10 ^ 4 + 1 / 2⌋ : ℤ) : ℚ) := by
    unfold toFixed4Num
    exact_mod_cast congrArg (Int.cast : ℤ → ℚ) (Int.toNat_of_nonneg hfl)
  have h1 : ((⌊x * 10 ^ 4 + 1 / 2⌋ : ℤ) : ℚ) ≤ x * 10 ^ 4 + 1 / 2 := Int.floor_le _
  have h2 : x * 10 ^ 4 + 1 / 2 - 1 < ((⌊x * 10 ^ 4 + 1 / 2⌋ : ℤ) : ℚ) := Int.sub_one_lt_floor _
  have e : ((⌊x * 10 ^ 4 + 1 / 2⌋ : ℤ) : ℚ) / 10 ^ 4 - x
      = (((⌊x * 10 ^ 4 + 1 / 2⌋ : ℤ) : ℚ) - x * 10 ^ 4) / 10 ^ 4 := by ring
  rw [hto, e, abs_le]
  constructor
  · rw [le_div_iff₀ (by norm_num : (0:ℚ) < 10 ^ 4)]
    norm_num
    linarith
  · rw [div_le_iff₀ (by norm_num : (0:ℚ) < 10 ^ 4)]
    norm_num
    linarith

/-- `10^18` (the parsed value of `"0xde0b6b3a7640000"`) is exactly
representable in binary64: `10^18 = 2^18 * 5^18` with `5^18 < 2^53`. -/
theorem roundToBinary64_1e18 : roundToBinary64 ((1000000000000000000 : ℕ) : ℚ) = 10 ^ 18 := by
  have hc : ((1000000000000000000 : ℕ) : ℚ) = 10 ^ 18 := by norm_num
  rw [hc]
  have hf : flog2 ((10 : ℚ) ^ 18) = 59 :=
    flog2_eq _ 59
      (by rw [show pow2z 59 = ((2 ^ 59 : ℕ) : ℚ) from rfl]; norm_num)
      (by rw [show pow2z (59 + 1) = ((2 ^ 60 : ℕ) : ℚ) from rfl]; norm_num)
  apply roundToBinary64_of_int_sig _ (by norm_num)
  have hsig : rndSig ((10 : ℚ) ^ 18) = ((7812500000000000 : ℤ) : ℚ) := by
    unfold rndSig ulpExp
    rw [hf]
    rw [show pow2z (59 - 52) = ((2 ^ 7 : ℕ) : ℚ) from rfl]
    norm_num
  rw [hsig, Int.floor_intCast]

/-- `1` is exactly representable in binary64. -/
theorem roundToBinary64_one : roundToBinary64 (1 : ℚ) = 1 := by
  have hf : flog2 (1 : ℚ) = 0 :=
    flog2_eq _ 0
      (by rw [show pow2z 0 = ((2 ^ 0 : ℕ) : ℚ) from rfl]; norm_num)
      (by rw [show pow2z (0 + 1) = ((2 ^ 1 : ℕ) : ℚ) from rfl]; norm_num)
  apply roundToBinary64_of_int_sig _ one_ne_zero
  have hsig : rndSig (1 : ℚ) = ((4503599627370496 : ℤ) : ℚ) := by
    unfold rndSig ulpExp
    rw [hf]
    rw [show pow2z (0 - 52) = ((2 ^ 52 : ℕ) : ℚ)⁻¹ from rfl]
    norm_num
  rw [hsig, Int.floor_intCast]

/-- `(1).toFixed(4)` is `"1.0000"`. -/
theorem toFixed4_one : toFixed4 (1 : ℚ) = "1.0000" := by
  have hn : toFixed4Num (1 : ℚ) = 10000 := by
    unfold toFixed4Num
    rw [floorEval ((1 : ℚ) * 10 ^ 4 + 1 / 2) 10000 (by norm_num) (by norm_num)]
    rfl
  unfold toFixed4
  rw [hn]
  decide

/-- The full pipeline at `10^18` wei: `"1.0000"`. -/
theorem weiToEth4_1e18 : weiToEth4 1000000000000000000 = "1.0000" := by
  unfold weiToEth4
  rw [roundToBinary64_1e18]
  rw [show ((10 : ℚ) ^ 18) / 10 ^ 18 = 1 by norm_num]
  rw [roundToBinary64_one, toFixed4_one]

/-- The full pipeline at `0` wei: `"0.0000"`. -/
theorem weiToEth4_zero : weiToEth4 0 = "0.0000" := by
  unfold weiToEth4
  rw [show ((0 : ℕ) : ℚ) = 0 by norm_num]
  rw [show roundToBinary64 (0 : ℚ) = 0 by unfold roundToBinary64; simp]
  rw [show (0 : ℚ) / 10 ^ 18 = 0 by norm_num]
  rw [show roundToBinary64 (0 : ℚ) = 0 by unfold roundToBinary64; simp]
  have hn : toFixed4Num (0 : ℚ) = 0 := by
    unfold toFixed4Num
    rw [floorEval ((0 : ℚ) * 10 ^ 4 + 1 / 2) 0 (by norm_num) (by norm_num)]
    rfl
  unfold toFixed4
  rw [hn]
  decide

/-- `1.5e14` (the parsed value of `"0x886c98b76000"`) is below `2^53` and
exactly representable in binary64. -/
theorem roundToBinary64_15e13 :
    roundToBinary64 ((150000000000000 : ℕ) : ℚ) = 150000000000000 := by
  have hc : ((150000000000000 : ℕ) : ℚ) = 150000000000000 := by norm_num
  rw [hc]
  have hf : flog2 ((150000000000000 : ℚ)) = 47 :=
    flog2_eq _ 47
      (by rw [show pow2z 47 = ((2 ^ 47 : ℕ) : ℚ) from rfl]; norm_num)
      (by rw [show pow2z (47 + 1) = ((2 ^ 48 : ℕ) : ℚ) from rfl]; norm_num)
  apply roundToBinary64_of_int_sig _ (by norm_num)
  have hsig : rndSig ((150000000000000 : ℚ)) = ((4800000000000000 : ℤ) : ℚ) := by
    unfold rndSig ulpExp
    rw [hf]
    rw [show pow2z (47 - 52) = ((2 ^ 5 : ℕ) : ℚ)⁻¹ from rfl]
    norm_num
  rw [hsig, Int.floor_intCast]

/-- The binary64 quotient `1.5e14 / 1e18`: the exact value `3/20000` is not
representable; it rounds down to `5534023222112865 * 2^-65`, which is
strictly below `1.5e-4`. -/
theorem roundToBinary64_quotient_15e13 :
    roundToBinary64 ((150000000000000 : ℚ) / 10 ^ 18) =
      (5534023222112865 : ℚ) * ((2 ^ 65 : ℕ) : ℚ)⁻¹ := by
  have hq : (150000000000000 : ℚ) / 10 ^ 18 = 3 / 20000 := by norm_num
  rw [hq]
  have hf : flog2 ((3 : ℚ) / 20000) = -13 :=
    flog2_eq _ (-13)
      (by rw [show pow2z (-13) = ((2 ^ 13 : ℕ) : ℚ)⁻¹ from rfl]; norm_num)
      (by rw [show pow2z (-13 + 1) = ((2 ^ 12 : ℕ) : ℚ)⁻¹ from rfl]; norm_num)
  have hulp : ulpExp ((3 : ℚ) / 20000) = -65 := by
    unfold ulpExp
    rw [hf]
    norm_num
  have hsig : rndSig ((3 : ℚ) / 20000) = (3 / 20000 : ℚ) * ((2 ^ 65 : ℕ) : ℚ) := by
    unfold rndSig
    rw [hulp]
    rw [show pow2z (-65) = ((2 ^ 65 : ℕ) : ℚ)⁻¹ from rfl]
    rw [div_inv_eq_mul]
  have hm : ⌊rndSig ((3 : ℚ) / 20000)⌋ = 5534023222112865 := by
    rw [hsig]
    apply floorEval
    · norm_num
    · norm_num
  have hlt : rndSig ((3 : ℚ) / 20000) - ((5534023222112865 : ℤ) : ℚ) < 1 / 2 := by
    rw [hsig]
    norm_num
  have := roundToBinary64_round_down ((3 : ℚ) / 20000) 5534023222112865 (by norm_num) hm hlt
  rw [this, hulp]
  rw [show pow2z (-65) = ((2 ^ 65 : ℕ) : ℚ)⁻¹ from rfl]
  norm_num

/-- The full pipeline at `1.5e14` wei prints `"0.0001"`: the binary64
quotient is just below `1.5e-4`, so `toFixed(4)` rounds down — where exact
rational arithmetic would print `"0.0002"`. -/
theorem weiToEth4_15e13 : weiToEth4 150000000000000 = "0.0001" := by
  unfold weiToEth4
  rw [roundToBinary64_15e13, roundToBinary64_quotient_15e13]
  have hn : toFixed4Num ((5534023222112865 : ℚ) * ((2 ^ 65 : ℕ) : ℚ)⁻¹) = 1 := by
    unfold toFixed4Num
    rw [floorEval ((5534023222112865 : ℚ) * ((2 ^ 65 : ℕ) : ℚ)⁻¹ * 10 ^ 4 + 1 / 2) 1
      (by norm_num) (by norm_num)]
    rfl
  unfold toFixed4
  rw [hn]
  decide

/-- For contrast, `toFixed(4)` applied to the exact rational quotient
`1.5e14 / 10^18 = 1.5e-4` rounds the tie up to `"0.0002"`: the program's
`"0.0001"` at this input is visible IEEE-double behavior. -/
theorem toFixed4_exact_15e13 : toFixed4 ((150000000000000 : ℚ) / 10 ^ 18) = "0.0002" := by
  have hn : toFixed4Num ((150000000000000 : ℚ) / 10 ^ 18) = 2 := by
    unfold toFixed4Num
    rw [floorEval ((150000000000000 : ℚ) / 10 ^ 18 * 10 ^ 4 + 1 / 2) 2 (by norm_num) (by norm_num)]
    rfl
  unfold toFixed4
  rw [hn]
  decide

/-! ## Claim theorems -/

/-- Claim C1: for every connect() call in which the provider returns a
non-empty account list and the subsequent chain-id query succeeds, the
resulting session has `isConnected = true`, `isConnecting = false`,
`address` equal to the first account in the returned list, and `error`
absent. -/
theorem connect_success_postcondition
    (p : EthereumProvider) (s : WalletState) (store : Bool)
    (first : String) (rest : List String) (cid : String)
    (h1 : p.isMetaMask = true)
    (h2 : p.requestAccountsResult = Except.ok (first :: rest))
    (h3 : p.chainIdResult = Except.ok cid) :
    (connect (some p) s store).1.isConnected = true ∧
    (connect (some p) s store).1.isConnecting = false ∧
    (connect (some p) s store).1.address = some first ∧
    (connect (some p) s store).1.error = none := by
  simp [connect, isMetamaskInstalled, h1, h2, updateWalletState, h3]

/-- Witness for C1 at a concrete provider and the initial session. -/
theorem connect_success_postcondition_witness :
    (connect (some ⟨true, Except.ok ["0xabc"], Except.ok [], Except.ok "0x1",
        Except.ok "0x0", Except.ok ()⟩) initialWalletState false).1.isConnected = true ∧
    (connect (some ⟨true, Except.ok ["0xabc"], Except.ok [], Except.ok "0x1",
        Except.ok "0x0", Except.ok ()⟩) initialWalletState false).1.isConnecting = false ∧
    (connect (some ⟨true, Except.ok ["0xabc"], Except.ok [], Except.ok "0x1",
        Except.ok "0x0", Except.ok ()⟩) initialWalletState false).1.address = some "0xabc" ∧
    (connect (some ⟨true, Except.ok ["0xabc"], Except.ok [], Except.ok "0x1",
        Except.ok "0x0", Except.ok ()⟩) initialWalletState false).1.error = none :=
  connect_success_postcondition _ initialWalletState false "0xabc" [] "0x1" rfl rfl rfl

/-- Claim C2, counterexample: the claim includes connect() calls issued while
the session is already connected.  After a successful connect, a second
connect whose account request returns an empty list leaves the session with
`isConnecting = true` and `isConnected = true` simultaneously, refuting the
invariant as stated. -/
theorem connect_while_connected_counterexample :
    (runOps [Op.opConnect (some ⟨true, Except.ok ["0xabc"], Except.ok [],
                Except.ok "0x1", Except.ok "0x0", Except.ok ()⟩),
             Op.opConnect (some ⟨true, Except.ok [], Except.ok [],
                Except.ok "0x1", Except.ok "0x0", Except.ok ()⟩)]
       initialState).1.isConnecting = true ∧
    (runOps [Op.opConnect (some ⟨true, Except.ok ["0xabc"], Except.ok [],
                Except.ok "0x1", Except.ok "0x0", Except.ok ()⟩),
             Op.opConnect (some ⟨true, Except.ok [], Except.ok [],
                Except.ok "0x1", Except.ok "0x0", Except.ok ()⟩)]
       initialState).1.isConnected = true := by
  decide

/-- Claim C2, amended: in every session state reachable from the initial
state by a sequence of controller operations and event notifications in
which every connect() is issued while `isConnected` is false, `isConnecting`
and `isConnected` are not both true. -/
theorem session_flags_never_both_true (ops : List Op)
    (h : connectDisciplined ops initialState = true) :
    ¬((runOps ops initialState).1.isConnecting = true ∧
      (runOps ops initialState).1.isConnected = true) := by
  rcases runOps_flags ops initialState (Or.inl rfl) h with h' | h' <;> simp [h']

/-- Witness for the amended C2 on a concrete disciplined trace. -/
theorem session_flags_never_both_true_witness :
    ¬((runOps [Op.opConnect (some ⟨true, Except.ok ["0xabc"], Except.ok [],
          Except.ok "0x1", Except.ok "0x0", Except.ok ()⟩)]
        initialState).1.isConnecting = true ∧
      (runOps [Op.opConnect (some ⟨true, Except.ok ["0xabc"], Except.ok [],
          Except.ok "0x1", Except.ok "0x0", Except.ok ()⟩)]
        initialState).1.isConnected = true) :=
  session_flags_never_both_true _ (by decide)

/-- Claim C3, counterexample: when the chain-id query fails, the catch block
keeps the previous `address` (here `"0xold"`), not the attempted `"0xnew"`,
and the message is `"Failed to update wallet information"`, not the claimed
lower-case `"failed to update wallet information"`. -/
theorem sync_failure_counterexample :
    (updateWalletState (some ⟨true, Except.ok [], Except.ok [],
        Except.error ⟨none⟩, Except.ok "0x0", Except.ok ()⟩) "0xnew"
        ⟨some "0xold", true, false, none, some "0x1", some "0.0000"⟩ true).1.address ≠
      some "0xnew" ∧
    (updateWalletState (some ⟨true, Except.ok [], Except.ok [],
        Except.error ⟨none⟩, Except.ok "0x0", Except.ok ()⟩) "0xnew"
        ⟨some "0xold", true, false, none, some "0x1", some "0.0000"⟩ true).1.error ≠
      some "failed to update wallet information" := by
  decide

/-- Claim C3, amended: for every invocation of the sync routine whose
provider query fails, the resulting session keeps `address` unchanged (the
pre-call address, not necessarily the attempted one), has
`error = "Failed to update wallet information"`, `isConnecting = false`, and
`isConnected` keeps its previous value. -/
theorem sync_failure_postcondition (eth : Option EthereumProvider) (address : String)
    (s : WalletState) (store : Bool)
    (h : chainQueryFails eth = true) :
    (updateWalletState eth address s store).1.address = s.address ∧
    (updateWalletState eth address s store).1.error =
      some "Failed to update wallet information" ∧
    (updateWalletState eth address s store).1.isConnecting = false ∧
    (updateWalletState eth address s store).1.isConnected = s.isConnected := by
  cases eth with
  | none => simp [updateWalletState]
  | some p =>
    cases hc : p.chainIdResult with
    | error e => simp [updateWalletState, hc]
    | ok cid => simp [chainQueryFails, hc] at h

/-- Witness for the amended C3 at a concrete failing environment. -/
theorem sync_failure_postcondition_witness :
    (updateWalletState (some ⟨true, Except.ok [], Except.ok [],
        Except.error ⟨none⟩, Except.ok "0x0", Except.ok ()⟩) "0xnew"
        initialWalletState false).1.address = initialWalletState.address ∧
    (updateWalletState (some ⟨true, Except.ok [], Except.ok [],
        Except.error ⟨none⟩, Except.ok "0x0", Except.ok ()⟩) "0xnew"
        initialWalletState false).1.error = some "Failed to update wallet information" ∧
    (updateWalletState (some ⟨true, Except.ok [], Except.ok [],
        Except.error ⟨none⟩, Except.ok "0x0", Except.ok ()⟩) "0xnew"
        initialWalletState false).1.isConnecting = false ∧
    (updateWalletState (some ⟨true, Except.ok [], Except.ok [],
        Except.error ⟨none⟩, Except.ok "0x0", Except.ok ()⟩) "0xnew"
        initialWalletState false).1.isConnected = initialWalletState.isConnected :=
  sync_failure_postcondition _ "0xnew" initialWalletState false rfl

/-- Claim C4, counterexample: a connect() issued from a connected session
and rejected with code 4001 keeps the previous `address` (the claim says
`address` is absent), and the message is `"Connection rejected by user"`,
not the claimed lower-case `"connection rejected by user"`. -/
theorem connect_rejected_counterexample :
    (runOps [Op.opConnect (some ⟨true, Except.ok ["0xabc"], Except.ok [],
                Except.ok "0x1", Except.ok "0x0", Except.ok ()⟩),
             Op.opConnect (some ⟨true, Except.error ⟨some 4001⟩, Except.ok [],
                Except.ok "0x1", Except.ok "0x0", Except.ok ()⟩)]
       initialState).1.address ≠ none ∧
    (runOps [Op.opConnect (some ⟨true, Except.ok ["0xabc"], Except.ok [],
                Except.ok "0x1", Except.ok "0x0", Except.ok ()⟩),
             Op.opConnect (some ⟨true, Except.error ⟨some 4001⟩, Except.ok [],
                Except.ok "0x1", Except.ok "0x0", Except.ok ()⟩)]
       initialState).1.error ≠ some "connection rejected by user" := by
  decide

/-- Claim C4, amended: for every connect() call whose account-access request
is rejected with code 4001, the resulting session has `isConnecting = false`,
`error = "Connection rejected by user"`, and `address` unchanged from before
the call (absent only when it was absent before). -/
theorem connect_rejected_postcondition
    (p : EthereumProvider) (s : WalletState) (store : Bool) (e : EthereumRpcError)
    (h1 : p.isMetaMask = true)
    (h2 : p.requestAccountsResult = Except.error e)
    (h3 : e.code = some 4001) :
    (connect (some p) s store).1.isConnecting = false ∧
    (connect (some p) s store).1.error = some "Connection rejected by user" ∧
    (connect (some p) s store).1.address = s.address := by
  simp [connect, isMetamaskInstalled, h1, h2, h3]

/-- Witness for the amended C4 at a concrete rejecting provider. -/
theorem connect_rejected_postcondition_witness :
    (connect (some ⟨true, Except.error ⟨some 4001⟩, Except.ok [], Except.ok "0x1",
        Except.ok "0x0", Except.ok ()⟩) initialWalletState false).1.isConnecting = false ∧
    (connect (some ⟨true, Except.error ⟨some 4001⟩, Except.ok [], Except.ok "0x1",
        Except.ok "0x0", Except.ok ()⟩) initialWalletState false).1.error =
      some "Connection rejected by user" ∧
    (connect (some ⟨true, Except.error ⟨some 4001⟩, Except.ok [], Except.ok "0x1",
        Except.ok "0x0", Except.ok ()⟩) initialWalletState false).1.address =
      initialWalletState.address :=
  connect_rejected_postcondition _ initialWalletState false ⟨some 4001⟩ rfl rfl rfl

/-- Claim C5, counterexample: when no provider is present the error message
set by connect() is `"MetaMask is not installed"`, not the claimed
`"provider not installed"`. -/
theorem connect_without_provider_counterexample :
    (connect none initialWalletState false).1.error = some "MetaMask is not installed" ∧
    (connect none initialWalletState false).1.error ≠ some "provider not installed" := by
  decide

/-- Claim C5, amended: for every connect() call made when no
capability-providing provider is present, the controller sets
`error = "MetaMask is not installed"` and returns with every other session
field and the persisted flag unchanged; in particular `isConnecting` is never
set to true on this path. -/
theorem connect_without_provider_postcondition
    (eth : Option EthereumProvider) (s : WalletState) (store : Bool)
    (h : isMetamaskInstalled eth = false) :
    (connect eth s store).1.error = some "MetaMask is not installed" ∧
    (connect eth s store).1.address = s.address ∧
    (connect eth s store).1.isConnected = s.isConnected ∧
    (connect eth s store).1.isConnecting = s.isConnecting ∧
    (connect eth s store).1.chainId = s.chainId ∧
    (connect eth s store).1.balance = s.balance ∧
    (connect eth s store).2 = store := by
  simp [connect, h]

/-- Witness for the amended C5 with the provider absent. -/
theorem connect_without_provider_postcondition_witness :
    (connect none initialWalletState false).1.error = some "MetaMask is not installed" ∧
    (connect none initialWalletState false).1.address = initialWalletState.address ∧
    (connect none initialWalletState false).1.isConnected = initialWalletState.isConnected ∧
    (connect none initialWalletState false).1.isConnecting = initialWalletState.isConnecting ∧
    (connect none initialWalletState false).1.chainId = initialWalletState.chainId ∧
    (connect none initialWalletState false).1.balance = initialWalletState.balance ∧
    (connect none initialWalletState false).2 = false :=
  connect_without_provider_postcondition none initialWalletState false rfl

/-- Claim C6: getBalance converts the raw hex-encoded wei balance by dividing
by `10^18` and formatting to exactly 4 decimal places, in the program's
IEEE-754 binary64 arithmetic: `"0xde0b6b3a7640000"` (`10^18` wei) returns
`"1.0000"` and `"0x0"` returns `"0.0000"`; at `"0x886c98b76000"`
(`1.5e14` wei) the binary64 pipeline returns `"0.0001"` while exact rational
conversion would give `"0.0002"` — the model reproduces the double behavior,
not the idealization; and on `toFixed`'s fixed-notation branch
(`0 ≤ x < 10^21`) the output always has exactly 4 characters after its dot
and prints the integer nearest to `x * 10^4` (ties up), within half a unit
in the fourth decimal place of the double quotient `x`. -/
theorem getBalance_conversion :
    (∀ (p : EthereumProvider) (a : String),
        p.getBalanceResult = Except.ok "0xde0b6b3a7640000" →
        getBalance (some p) a = some "1.0000") ∧
    (∀ (p : EthereumProvider) (a : String),
        p.getBalanceResult = Except.ok "0x0" →
        getBalance (some p) a = some "0.0000") ∧
    (∀ (p : EthereumProvider) (a : String),
        p.getBalanceResult = Except.ok "0x886c98b76000" →
        getBalance (some p) a = some "0.0001") ∧
    toFixed4 ((150000000000000 : ℚ) / 10 ^ 18) = "0.0002" ∧
    (∀ x : ℚ, 0 ≤ x → x < 10 ^ 21 →
      (fracDigits (toFixed4 x)).length = 4 ∧ '.' ∈ (toFixed4 x).data) ∧
    (∀ x : ℚ, 0 ≤ x → x < 10 ^ 21 →
      |((toFixed4Num x : ℕ) : ℚ) / 10 ^ 4 - x| ≤ 1 / 20000) := by
  refine ⟨?_, ?_, ?_, toFixed4_exact_15e13, ?_, ?_⟩
  · intro p a h
    simp only [getBalance, h]
    rw [show parseIntHex "0xde0b6b3a7640000" = some 1000000000000000000 from by decide]
    exact congrArg some weiToEth4_1e18
  · intro p a h
    simp only [getBalance, h]
    rw [show parseIntHex "0x0" = some 0 from by decide]
    exact congrArg some weiToEth4_zero
  · intro p a h
    simp only [getBalance, h]
    rw [show parseIntHex "0x886c98b76000" = some 150000000000000 from by decide]
    exact congrArg some weiToEth4_15e13
  · intro x hx hlt
    exact ⟨toFixed4_fracDigits_length x, toFixed4_has_dot x⟩
  · intro x hx hlt
    exact toFixed4_rounding x hx

/-- Witness for C6 at concrete providers returning the quoted hex
balances, plus the formatting conjuncts at `x = 1`. -/
theorem getBalance_conversion_witness :
    getBalance (some ⟨true, Except.ok [], Except.ok [], Except.ok "0x1",
        Except.ok "0xde0b6b3a7640000", Except.ok ()⟩) "0xabc" = some "1.0000" ∧
    getBalance (some ⟨true, Except.ok [], Except.ok [], Except.ok "0x1",
        Except.ok "0x0", Except.ok ()⟩) "0xabc" = some "0.0000" ∧
    getBalance (some ⟨true, Except.ok [], Except.ok [], Except.ok "0x1",
        Except.ok "0x886c98b76000", Except.ok ()⟩) "0xabc" = some "0.0001" ∧
    ((fracDigits (toFixed4 (1 : ℚ))).length = 4 ∧ '.' ∈ (toFixed4 (1 : ℚ)).data) ∧
    |((toFixed4Num (1 : ℚ) : ℕ) : ℚ) / 10 ^ 4 - 1| ≤ 1 / 20000 :=
  ⟨getBalance_conversion.1 _ "0xabc" rfl,
   getBalance_conversion.2.1 _ "0xabc" rfl,
   getBalance_conversion.2.2.1 _ "0xabc" rfl,
   getBalance_conversion.2.2.2.2.1 1 (by norm_num) (by norm_num),
   getBalance_conversion.2.2.2.2.2 1 (by norm_num) (by norm_num)⟩

/-- Claim C7: disconnect() is idempotent: from every starting session state,
calling it twice yields the same all-absent/false state as calling it once,
and the persisted flag is absent after each of the two calls. -/
theorem disconnect_idempotent (s : WalletState) (store : Bool) :
    disconnect (disconnect s store).1 (disconnect s store).2 = disconnect s store ∧
    (disconnect s store).1 = { address := none, isConnected := false, isConnecting := false,
                               error := none, chainId := none, balance := none } ∧
    (disconnect s store).2 = false ∧
    (disconnect (disconnect s store).1 (disconnect s store).2).2 = false :=
  ⟨rfl, rfl, rfl, rfl⟩

/-- Claim C8: for every switchNetwork call rejected with code 4902, the
resulting session has `error = "This network is not added to MetaMask"` and
every other session field and the persisted flag unchanged. -/
theorem switchNetwork_unrecognized_frame
    (p : EthereumProvider) (cid : String) (s : WalletState) (store : Bool)
    (e : EthereumRpcError)
    (h1 : p.switchResult = Except.error e) (h2 : e.code = some 4902) :
    (switchNetwork (some p) cid s store).1.error =
      some "This network is not added to MetaMask" ∧
    (switchNetwork (some p) cid s store).1.address = s.address ∧
    (switchNetwork (some p) cid s store).1.isConnected = s.isConnected ∧
    (switchNetwork (some p) cid s store).1.isConnecting = s.isConnecting ∧
    (switchNetwork (some p) cid s store).1.chainId = s.chainId ∧
    (switchNetwork (some p) cid s store).1.balance = s.balance ∧
    (switchNetwork (some p) cid s store).2 = store := by
  simp [switchNetwork, h1, h2]

/-- Witness for C8 at a concrete provider rejecting with 4902. -/
theorem switchNetwork_unrecognized_frame_witness :
    (switchNetwork (some ⟨true, Except.ok [], Except.ok [], Except.ok "0x1",
        Except.ok "0x0", Except.error ⟨some 4902⟩⟩) "0x5" initialWalletState
        false).1.error = some "This network is not added to MetaMask" ∧
    (switchNetwork (some ⟨true, Except.ok [], Except.ok [], Except.ok "0x1",
        Except.ok "0x0", Except.error ⟨some 4902⟩⟩) "0x5" initialWalletState
        false).1.address = initialWalletState.address ∧
    (switchNetwork (some ⟨true, Except.ok [], Except.ok [], Except.ok "0x1",
        Except.ok "0x0", Except.error ⟨some 4902⟩⟩) "0x5" initialWalletState
        false).1.isConnected = initialWalletState.isConnected ∧
    (switchNetwork (some ⟨true, Except.ok [], Except.ok [], Except.ok "0x1",
        Except.ok "0x0", Except.error ⟨some 4902⟩⟩) "0x5" initialWalletState
        false).1.isConnecting = initialWalletState.isConnecting ∧
    (switchNetwork (some ⟨true, Except.ok [], Except.ok [], Except.ok "0x1",
        Except.ok "0x0", Except.error ⟨some 4902⟩⟩) "0x5" initialWalletState
        false).1.chainId = initialWalletState.chainId ∧
    (switchNetwork (some ⟨true, Except.ok [], Except.ok [], Except.ok "0x1",
        Except.ok "0x0", Except.error ⟨some 4902⟩⟩) "0x5" initialWalletState
        false).1.balance = initialWalletState.balance ∧
    (switchNetwork (some ⟨true, Except.ok [], Except.ok [], Except.ok "0x1",
        Except.ok "0x0", Except.error ⟨some 4902⟩⟩) "0x5" initialWalletState
        false).2 = false :=
  switchNetwork_unrecognized_frame _ "0x5" initialWalletState false ⟨some 4902⟩ rfl rfl

/-- Claim C9: for every connect() call in which the account-access request
succeeds but returns an empty list, the session is left with
`isConnecting = true` and `error` absent: no branch clears `isConnecting` on
this path. -/
theorem connect_empty_accounts_connecting
    (p : EthereumProvider) (s : WalletState) (store : Bool)
    (h1 : p.isMetaMask = true)
    (h2 : p.requestAccountsResult = Except.ok ([] : List String)) :
    (connect (some p) s store).1.isConnecting = true ∧
    (connect (some p) s store).1.error = none := by
  simp [connect, isMetamaskInstalled, h1, h2]

/-- Witness for C9 at a concrete provider returning no accounts. -/
theorem connect_empty_accounts_connecting_witness :
    (connect (some ⟨true, Except.ok [], Except.ok [], Except.ok "0x1",
        Except.ok "0x0", Except.ok ()⟩) initialWalletState false).1.isConnecting = true ∧
    (connect (some ⟨true, Except.ok [], Except.ok [], Except.ok "0x1",
        Except.ok "0x0", Except.ok ()⟩) initialWalletState false).1.error = none :=
  connect_empty_accounts_connecting _ initialWalletState false rfl rfl

/-- Claim C10: the presentation adapter's address-shortening function returns
any address of length at most 10 unchanged, and for every longer string
returns the first 6 characters, then `"..."`, then the last 4 characters. -/
theorem formatAddress_spec (addr : String) :
    (addr.length ≤ 10 → formatAddress addr = addr) ∧
    (10 < addr.length →
      (formatAddress addr).data =
        addr.data.take 6 ++ ['.', '.', '.'] ++ addr.data.drop (addr.length - 4)) := by
  constructor
  · intro h
    simp [formatAddress, h]
  · intro h
    have h' : ¬ addr.length ≤ 10 := by omega
    have hlen : addr.length = addr.data.length := rfl
    have hdots : ("..." : String).data = ['.', '.', '.'] := rfl
    have e1 : min 0 addr.length = 0 := by omega
    have e2 : min 6 addr.length = 6 := by omega
    have e3 : min (addr.length - 4) addr.length = addr.length - 4 := by omega
    have e4 : min addr.length addr.length = addr.length := by omega
    have e5 : max 0 6 = 6 := by omega
    have e6 : min 0 6 = 0 := by omega
    have e7 : max (addr.length - 4) addr.length = addr.length := by omega
    have e8 : min (addr.length - 4) addr.length = addr.length - 4 := by omega
    simp only [formatAddress, h', if_false, jsSubstring, String.data_append,
      e1, e2, e3, e4, e5, e6, e7, e8, hdots]
    rw [List.drop_zero, hlen, List.take_length]

/-- Witness for C10: a short address is returned unchanged and a 16-character
address is shortened to its first 6 characters, dots, and last 4. -/
theorem formatAddress_spec_witness :
    formatAddress "short" = "short" ∧
    (formatAddress "0x1234567890abcd").data =
      "0x1234567890abcd".data.take 6 ++ ['.', '.', '.'] ++
      "0x1234567890abcd".data.drop ("0x1234567890abcd".length - 4) :=
  ⟨(formatAddress_spec "short").1 (by decide),
   (formatAddress_spec "0x1234567890abcd").2 (by decide)⟩
